import Mathlib

/-!
Verification development for the psi-monitor run orchestration engine.

The embedding models the monitor source: the retrying fetch operation
(`fetchLighthouseScore`), the outer retry wrapper (`retryWithDelay`), the
persistence operations (`saveResults`, `saveMetricsToCSV`) and the sequential
batch driver (`monitor` / `runPass`).  Execution is modelled with an explicit
clock: every suspension point (a fetch invocation, an inter-attempt wait, a
persistence operation) consumes one clock tick and records one trace event.
The environment supplies, per clock value, the outcome of a network call, the
state of the abort signal, and the outcome of each persistence operation.
-/

namespace PsiMonitor

/-- One page to be scored (the `PageConfig` interface of the source). -/
structure PageConfig where
  context : String
  title : String
  url : String
deriving Repr, DecidableEq

/-- The opaque structured document returned by the remote scoring API. -/
abbrev FetchResult := String

/-- Observable events of a run.  `net` is a network request actually issued;
`abortedFetch` is a fetch invocation refused immediately because the abort
signal was already set when the fetch started; `sleep` is an inter-attempt
wait of `ms` milliseconds; `persistRaw` / `persistCsv` are the two persistence
operations, carrying the data they receive and whether they succeeded. -/
inductive Ev where
  | net (t : Nat) (url : String)
  | abortedFetch (t : Nat) (url : String)
  | sleep (t : Nat) (ms : Int)
  | persistRaw (t : Nat) (data : Option FetchResult) (ok : Bool)
  | persistCsv (t : Nat) (data : Option FetchResult) (ok : Bool)
deriving Repr, DecidableEq

/-- Clock value at which an event happened. -/
def Ev.time : Ev → Nat
  | .net t _ => t
  | .abortedFetch t _ => t
  | .sleep t _ => t
  | .persistRaw t _ _ => t
  | .persistCsv t _ _ => t

/-- Whether the event is a network request actually issued. -/
def Ev.isNet : Ev → Bool
  | .net _ _ => true
  | _ => false

/-- Whether the event is a fetch invocation (issued or refused by the signal). -/
def Ev.isFetchStart : Ev → Bool
  | .net _ _ => true
  | .abortedFetch _ _ => true
  | _ => false

/-- Whether the event is an inter-attempt wait. -/
def Ev.isSleep : Ev → Bool
  | .sleep _ _ => true
  | _ => false

/-- Whether the event is a failed persistence operation. -/
def Ev.isPersistFail : Ev → Bool
  | .persistRaw _ _ false => true
  | .persistCsv _ _ false => true
  | _ => false

/-- Number of network requests in a trace. -/
def countNets (l : List Ev) : Nat := l.countP fun e => e.isNet

/-- Number of inter-attempt waits in a trace. -/
def countSleeps (l : List Ev) : Nat := l.countP fun e => e.isSleep

/-- The run environment: per clock value, the outcome of a network call for a
given url, the state of the abort signal, and the outcomes of the two
persistence operations. -/
structure Env where
  oracle : Nat → String → Except String FetchResult
  aborted : Nat → Bool
  saveRawR : Nat → Except String Unit
  saveCsvR : Nat → Except String Unit

/-- Whether an `Except` result is a success. -/
def exceptOk : Except String Unit → Bool
  | .ok _ => true
  | .error _ => false

/-- The `fetch(url, { signal })` primitive: when the signal is already set the
call is refused immediately (no network request); otherwise the network
request is issued and the environment's oracle decides its outcome.  Either
way one clock tick is consumed. -/
def fetchPrim (env : Env) (url : String) (t : Nat) :
    Except String FetchResult × List Ev × Nat :=
  if env.aborted t then
    (Except.error "AbortError", [Ev.abortedFetch t url], t + 1)
  else
    (env.oracle t url, [Ev.net t url], t + 1)

/-- The attempt loop of `fetchLighthouseScore` (source lines 62-96), indexed
by the number of remaining attempts.  On a failed attempt the catch block
first consults the abort signal (rethrow if set), then waits `delay` and
retries while attempts remain, and rethrows the last error once the final
attempt has failed.  Zero remaining attempts means the loop body never runs
and the function resolves with `undefined` (`Except.ok none`). -/
def fetchAttempts (env : Env) (url : String) (delay : Int) :
    Nat → Nat → Except String (Option FetchResult) × List Ev × Nat
  | 0, t => (Except.ok none, [], t)
  | r + 1, t =>
    match fetchPrim env url t with
    | (Except.ok d, evs, t1) => (Except.ok (some d), evs, t1)
    | (Except.error e, evs, t1) =>
      if env.aborted t1 then (Except.error e, evs, t1)
      else if r = 0 then (Except.error e, evs, t1)
      else
        let res := fetchAttempts env url delay r (t1 + 1)
        (res.1, evs ++ Ev.sleep t1 delay :: res.2.1, res.2.2)

/-- `fetchLighthouseScore({url, apiKey, signal, retries, delay})`: the retry
loop runs for attempts `1..retries`, so `retries.toNat` iterations. -/
def fetchLighthouseScore (env : Env) (url : String) (retries delay : Int)
    (t : Nat) : Except String (Option FetchResult) × List Ev × Nat :=
  fetchAttempts env url delay retries.toNat t

/-- The attempt loop of `retryWithDelay` (source lines 186-206), indexed by
remaining attempts.  Note that, unlike `fetchLighthouseScore`, this wrapper
never consults the abort signal: on any error it waits and retries while
attempts remain. -/
def retryAttempts (fn : Nat → Except String (Option FetchResult) × List Ev × Nat)
    (delay : Int) : Nat → Nat → Except String (Option FetchResult) × List Ev × Nat
  | 0, t => (Except.ok none, [], t)
  | r + 1, t =>
    match fn t with
    | (Except.ok v, evs, t1) => (Except.ok v, evs, t1)
    | (Except.error e, evs, t1) =>
      if r = 0 then (Except.error e, evs, t1)
      else
        let res := retryAttempts fn delay r (t1 + 1)
        (res.1, evs ++ Ev.sleep t1 delay :: res.2.1, res.2.2)

/-- `retryWithDelay(fn, retries, delay)`. -/
def retryWithDelay (fn : Nat → Except String (Option FetchResult) × List Ev × Nat)
    (retries delay : Int) (t : Nat) :
    Except String (Option FetchResult) × List Ev × Nat :=
  retryAttempts fn delay retries.toNat t

/-- The per-target fetch unit exactly as `monitor` builds it (source lines
234-245): `retryWithDelay(() => fetchLighthouseScore({...retries, delay}),
retries, delay)` — the already-retrying fetch wrapped in a second retry loop
with the same attempt count. -/
def fetchUnit (env : Env) (url : String) (retries delay : Int) (t : Nat) :
    Except String (Option FetchResult) × List Ev × Nat :=
  retryWithDelay (fun t0 => fetchLighthouseScore env url retries delay t0)
    retries delay t

/-- `saveResults` as seen by the orchestrator: it receives the fetched data
and performs one write (`fs.writeJson`, source line 120) whose outcome the
environment decides.  `saveResults` itself dereferences nothing, so even for
undefined data there is no deterministic failure before the write (jsonfile
stringifies the data and coerces an undefined serialization into the file
text); an environment whose `saveRawR` errors at that clock also covers the
reading under which writing undefined data fails.  No theorem below about the
undefined-data scenario depends on this operation's outcome. -/
def saveResults (env : Env) (d : Option FetchResult) (t : Nat) :
    Except String Unit × List Ev × Nat :=
  (env.saveRawR t, [Ev.persistRaw t d (exceptOk (env.saveRawR t))], t + 1)

/-- `saveMetricsToCSV` as seen by the orchestrator: it receives the fetched
data and first reads `data.lighthouseResult` (source line 158), which for
undefined data throws a TypeError deterministically — before any row is
written and independently of the environment; otherwise the append is one
persistence operation whose outcome the environment decides. -/
def saveMetricsToCSV (env : Env) (d : Option FetchResult) (t : Nat) :
    Except String Unit × List Ev × Nat :=
  match d with
  | none => (Except.error "TypeError", [Ev.persistCsv t none false], t + 1)
  | some _ =>
    (env.saveCsvR t, [Ev.persistCsv t d (exceptOk (env.saveCsvR t))], t + 1)

/-- Outcome of one pass: the counters and failed list of the source, plus the
observable instrumentation (which targets succeeded, which targets were left
unprocessed by a cancellation break, the event trace, the final clock). -/
structure PassResult where
  successCount : Nat
  failureCount : Nat
  failedPages : List PageConfig
  succeededPages : List PageConfig
  unprocessed : List PageConfig
  cancelled : Bool
  trace : List Ev
  clock : Nat
deriving Repr, DecidableEq

/-- One sequential pass of `monitor` over a list of targets (source lines
232-271 for the first pass; the retry pass, lines 291-330, is the identical
text over `failedPages`).  For each target: run the fetch unit; on success
persist raw result then metrics and increment `successCount`; on any caught
error, break out of the loop if the signal is aborted, otherwise increment
`failureCount`, append the target to `failedPages` and continue. -/
def runPass (env : Env) (retries delay : Int) :
    List PageConfig → Nat → PassResult
  | [], t => ⟨0, 0, [], [], [], false, [], t⟩
  | p :: rest, t =>
    match fetchUnit env p.url retries delay t with
    | (Except.ok d, evs, t1) =>
      match saveResults env d t1 with
      | (Except.ok _, evs2, t2) =>
        match saveMetricsToCSV env d t2 with
        | (Except.ok _, evs3, t3) =>
          let r := runPass env retries delay rest t3
          ⟨r.successCount + 1, r.failureCount, r.failedPages,
            p :: r.succeededPages, r.unprocessed, r.cancelled,
            evs ++ evs2 ++ evs3 ++ r.trace, r.clock⟩
        | (Except.error _, evs3, t3) =>
          if env.aborted t3 then
            ⟨0, 0, [], [], p :: rest, true, evs ++ evs2 ++ evs3, t3⟩
          else
            let r := runPass env retries delay rest t3
            ⟨r.successCount, r.failureCount + 1, p :: r.failedPages,
              r.succeededPages, r.unprocessed, r.cancelled,
              evs ++ evs2 ++ evs3 ++ r.trace, r.clock⟩
      | (Except.error _, evs2, t2) =>
        if env.aborted t2 then
          ⟨0, 0, [], [], p :: rest, true, evs ++ evs2, t2⟩
        else
          let r := runPass env retries delay rest t2
          ⟨r.successCount, r.failureCount + 1, p :: r.failedPages,
            r.succeededPages, r.unprocessed, r.cancelled,
            evs ++ evs2 ++ r.trace, r.clock⟩
    | (Except.error _, evs, t1) =>
      if env.aborted t1 then
        ⟨0, 0, [], [], p :: rest, true, evs, t1⟩
      else
        let r := runPass env retries delay rest t1
        ⟨r.successCount, r.failureCount + 1, p :: r.failedPages,
          r.succeededPages, r.unprocessed, r.cancelled,
          evs ++ r.trace, r.clock⟩

/-- Result of the whole `monitor` call: the first pass, whether the retry
prompt was offered, and the retry pass when it ran. -/
structure MonitorResult where
  first : PassResult
  promptOffered : Bool
  retryRun : Option PassResult
deriving Repr, DecidableEq

/-- The `monitor` orchestration (source lines 208-342): run the first pass
over all pages; if `failedPages` is nonempty (the only condition the source
checks, line 277), the confirmation prompt is offered and, when affirmed, the
identical per-target procedure is repeated over `failedPages` with fresh
counters. -/
def monitor (env : Env) (retries delay : Int) (pages : List PageConfig)
    (confirm : Bool) : MonitorResult :=
  let r1 := runPass env retries delay pages 0
  { first := r1
    promptOffered := decide (0 < r1.failedPages.length)
    retryRun :=
      if 0 < r1.failedPages.length ∧ confirm = true then
        some (runPass env retries delay r1.failedPages r1.clock)
      else none }

/-- All events of a `monitor` call, first pass followed by the retry pass. -/
def monitorTrace (m : MonitorResult) : List Ev :=
  m.first.trace ++ (match m.retryRun with | some r => r.trace | none => [])

/-! ### File-level model of `saveMetricsToCSV` (source lines 124-184)

The CSV file is a list of rows; `none` models a file that does not exist.
The source computes `append := (file exists) && (file size > 0)` and hands it
to the csv-writer, which appends one data row when `append` is true and
otherwise (re)writes the file as a header row followed by the data row. -/

/-- One derived metrics record (source lines 172-180), all fields display
strings extracted from the fetched document. -/
structure MetricsRecord where
  title : String
  date : String
  firstContentfulPaint : String
  largestContentfulPaint : String
  cumulativeLayoutShift : String
  totalBlockingTime : String
  speedIndex : String
deriving Repr, DecidableEq

/-- A row of the metrics CSV file: the header row or one data row. -/
inductive CsvRow where
  | header
  | data (rec : MetricsRecord)
deriving Repr, DecidableEq

/-- Effect of one `saveMetricsToCSV` call on the CSV file (source lines
135-156 and 182): `append` is true exactly when the file exists with positive
size; with `append` the csv-writer appends the one data row, without it the
csv-writer writes a header row plus the one data row. -/
def saveMetricsToCSVFile (rec : MetricsRecord) (file : Option (List CsvRow)) :
    Option (List CsvRow) :=
  let append : Bool :=
    match file with
    | none => false
    | some rows => !rows.isEmpty
  if append then some (file.getD [] ++ [CsvRow.data rec])
  else some [CsvRow.header, CsvRow.data rec]

/-! ### Path-level model of the persistence directories

Paths are modelled as lists of segments; `path.join` appends segments. -/

/-- The directory `saveMetricsToCSV` ensures (source lines 130-132):
`path.join(resultsDir, date)`. -/
def saveMetricsEnsuredDir (resultsDir date : String) : List String :=
  [resultsDir, date]

/-- The file `saveMetricsToCSV` writes (source line 134):
`path.join(resultsDir, context, "metrics.csv")`. -/
def metricsCsvPath (resultsDir context : String) : List String :=
  [resultsDir, context, "metrics.csv"]

/-- The directory `saveResults` ensures (source lines 112-114):
`path.join(resultsDir, context, date)`. -/
def saveResultsEnsuredDir (resultsDir context date : String) : List String :=
  [resultsDir, context, date]

/-- The directory containing a path. -/
def parentDir (p : List String) : List String := p.dropLast

/-- Formalisation of claim C6 as stated: whenever a persistence operation
fails during a pass, the pass aborts there, so the failing persistence event
is the last event of the pass trace. -/
def abortsOnPersistFail (tr : List Ev) : Bool :=
  match tr.findIdx? (fun e => e.isPersistFail) with
  | none => true
  | some i => i + 1 == tr.length

/-- Formalisation of claim C3 as stated: after the cancellation token is set,
no remote call is started (no fetch invocation at all) and no wait is entered
(cancellation is observed before every wait and before every new attempt). -/
def postAbortQuiet (env : Env) (tr : List Ev) : Prop :=
  ∀ e ∈ tr, env.aborted e.time = true →
    e.isFetchStart = false ∧ e.isSleep = false

instance (env : Env) (tr : List Ev) : Decidable (postAbortQuiet env tr) := by
  unfold postAbortQuiet; infer_instance

/-! ### Closed forms for the failing retry loops -/

/-- Trace of `r` consecutive failing attempts of the inner fetch loop starting
at clock `t`: a network call every two ticks, a wait between consecutive
calls. -/
def failTraceF (url : String) (delay : Int) : Nat → Nat → List Ev
  | 0, _ => []
  | 1, t => [Ev.net t url]
  | r + 2, t =>
    Ev.net t url :: Ev.sleep (t + 1) delay :: failTraceF url delay (r + 1) (t + 2)

lemma countNets_cons (e : Ev) (l : List Ev) :
    countNets (e :: l) = (if e.isNet then 1 else 0) + countNets l := by
  simp [countNets, List.countP_cons]
  split <;> omega

lemma countSleeps_cons (e : Ev) (l : List Ev) :
    countSleeps (e :: l) = (if e.isSleep then 1 else 0) + countSleeps l := by
  simp [countSleeps, List.countP_cons]
  split <;> omega

lemma countNets_append (l₁ l₂ : List Ev) :
    countNets (l₁ ++ l₂) = countNets l₁ + countNets l₂ := by
  simp [countNets, List.countP_append]

lemma countSleeps_append (l₁ l₂ : List Ev) :
    countSleeps (l₁ ++ l₂) = countSleeps l₁ + countSleeps l₂ := by
  simp [countSleeps, List.countP_append]

lemma fetchPrim_live (env : Env) (url : String) (t : Nat)
    (h : env.aborted t = false) :
    fetchPrim env url t = (env.oracle t url, [Ev.net t url], t + 1) := by
  simp [fetchPrim, h]

lemma fetchAttempts_succ_def (env : Env) (url : String) (delay : Int)
    (r t : Nat) :
    fetchAttempts env url delay (r + 1) t =
      match fetchPrim env url t with
      | (Except.ok d, evs, t1) => (Except.ok (some d), evs, t1)
      | (Except.error e, evs, t1) =>
        if env.aborted t1 then (Except.error e, evs, t1)
        else if r = 0 then (Except.error e, evs, t1)
        else
          ((fetchAttempts env url delay r (t1 + 1)).1,
            evs ++ Ev.sleep t1 delay :: (fetchAttempts env url delay r (t1 + 1)).2.1,
            (fetchAttempts env url delay r (t1 + 1)).2.2) := rfl

lemma failTraceF_succ2 (url : String) (delay : Int) (r t : Nat) :
    failTraceF url delay (r + 1 + 1) t =
      Ev.net t url :: Ev.sleep (t + 1) delay ::
        failTraceF url delay (r + 1) (t + 2) := rfl

lemma fetchAttempts_fail (env : Env) (url : String) (delay : Int)
    (errF : Nat → String)
    (hab : ∀ s, env.aborted s = false)
    (hor : ∀ s, env.oracle s url = Except.error (errF s)) :
    ∀ r t, fetchAttempts env url delay (r + 1) t =
      (Except.error (errF (t + 2 * r)), failTraceF url delay (r + 1) t,
        t + 2 * r + 1) := by
  intro r
  induction r with
  | zero =>
    intro t
    rw [fetchAttempts_succ_def, fetchPrim_live env url t (hab t), hor t]
    simp [hab, failTraceF]
  | succ r ih =>
    intro t
    rw [fetchAttempts_succ_def, fetchPrim_live env url t (hab t), hor t]
    simp only [hab, Bool.false_eq_true, if_false, Nat.succ_ne_zero, ih (t + 2)]
    rw [failTraceF_succ2]
    have h1 : t + 2 + 2 * r = t + 2 * (r + 1) := by ring
    have h2 : t + 2 + 2 * r + 1 = t + 2 * (r + 1) + 1 := by ring
    simp [h1, h2]

lemma fetchAttempts_ok_head (env : Env) (url : String) (delay : Int)
    (d : FetchResult) (r t : Nat)
    (hab : env.aborted t = false)
    (hd : env.oracle t url = Except.ok d) :
    fetchAttempts env url delay (r + 1) t =
      (Except.ok (some d), [Ev.net t url], t + 1) := by
  rw [fetchAttempts_succ_def, fetchPrim_live env url t hab, hd]

lemma countNets_failTraceF (url : String) (delay : Int) :
    ∀ r t, countNets (failTraceF url delay (r + 1) t) = r + 1 := by
  intro r
  induction r with
  | zero =>
    intro t
    simp [failTraceF, countNets, List.countP_cons, Ev.isNet]
  | succ r ih =>
    intro t
    rw [failTraceF_succ2, countNets_cons, countNets_cons, ih (t + 2)]
    simp [Ev.isNet, Ev.isSleep]
    omega

lemma countSleeps_failTraceF (url : String) (delay : Int) :
    ∀ r t, countSleeps (failTraceF url delay (r + 1) t) = r := by
  intro r
  induction r with
  | zero =>
    intro t
    simp [failTraceF, countSleeps, List.countP_cons, Ev.isSleep]
  | succ r ih =>
    intro t
    rw [failTraceF_succ2, countSleeps_cons, countSleeps_cons, ih (t + 2)]
    simp [Ev.isNet, Ev.isSleep]
    omega

lemma sleeps_failTraceF (url : String) (delay : Int) :
    ∀ r t, ∀ e ∈ failTraceF url delay r t, e.isSleep = true →
      ∃ s, e = Ev.sleep s delay := by
  intro r
  induction r with
  | zero => intro t e he _; simp [failTraceF] at he
  | succ r ih =>
    intro t e he hs
    match r, ih with
    | 0, _ =>
      simp [failTraceF] at he
      subst he
      simp [Ev.isSleep] at hs
    | r + 1, ih =>
      rw [failTraceF_succ2] at he
      simp only [List.mem_cons] at he
      rcases he with rfl | rfl | he
      · simp [Ev.isSleep] at hs
      · exact ⟨_, rfl⟩
      · exact ih (t + 2) e he hs

/-- Trace of `r + 1` failing invocations of the outer retry wrapper, when each
invocation starting at clock `t` produces trace `ftr t` and stops at clock
`t + c`: between consecutive invocations the wrapper waits `delay`. -/
def retryFailTrace (ftr : Nat → List Ev) (delay : Int) (c : Nat) :
    Nat → Nat → List Ev
  | 0, t => ftr t
  | r + 1, t =>
    ftr t ++ Ev.sleep (t + c) delay :: retryFailTrace ftr delay c r (t + c + 1)

lemma retryAttempts_succ_def
    (fn : Nat → Except String (Option FetchResult) × List Ev × Nat)
    (delay : Int) (r t : Nat) :
    retryAttempts fn delay (r + 1) t =
      match fn t with
      | (Except.ok v, evs, t1) => (Except.ok v, evs, t1)
      | (Except.error e, evs, t1) =>
        if r = 0 then (Except.error e, evs, t1)
        else
          ((retryAttempts fn delay r (t1 + 1)).1,
            evs ++ Ev.sleep t1 delay :: (retryAttempts fn delay r (t1 + 1)).2.1,
            (retryAttempts fn delay r (t1 + 1)).2.2) := rfl

lemma retryAttempts_ok_head
    (fn : Nat → Except String (Option FetchResult) × List Ev × Nat)
    (delay : Int) (r t t1 : Nat) (v : Option FetchResult) (evs : List Ev)
    (h : fn t = (Except.ok v, evs, t1)) :
    retryAttempts fn delay (r + 1) t = (Except.ok v, evs, t1) := by
  rw [retryAttempts_succ_def, h]

lemma retryAttempts_fail
    (fn : Nat → Except String (Option FetchResult) × List Ev × Nat)
    (delay : Int) (eF : Nat → String) (ftr : Nat → List Ev) (c : Nat)
    (hfn : ∀ t, fn t = (Except.error (eF t), ftr t, t + c)) :
    ∀ r t, retryAttempts fn delay (r + 1) t =
      (Except.error (eF (t + r * (c + 1))), retryFailTrace ftr delay c r t,
        t + r * (c + 1) + c) := by
  intro r
  induction r with
  | zero =>
    intro t
    rw [retryAttempts_succ_def, hfn t]
    simp [retryFailTrace]
  | succ r ih =>
    intro t
    rw [retryAttempts_succ_def, hfn t]
    simp only [Nat.succ_ne_zero, if_false, ih (t + c + 1)]
    have h1 : t + c + 1 + r * (c + 1) = t + (r + 1) * (c + 1) := by ring
    have h2 : t + c + 1 + r * (c + 1) + c = t + (r + 1) * (c + 1) + c := by ring
    rw [show retryFailTrace ftr delay c (r + 1) t =
      ftr t ++ Ev.sleep (t + c) delay :: retryFailTrace ftr delay c r (t + c + 1)
      from rfl]
    simp [h1, h2]

lemma countNets_retryFailTrace (ftr : Nat → List Ev) (delay : Int) (c n : Nat)
    (hn : ∀ t, countNets (ftr t) = n) :
    ∀ r t, countNets (retryFailTrace ftr delay c r t) = (r + 1) * n := by
  intro r
  induction r with
  | zero => intro t; simp [retryFailTrace, hn]
  | succ r ih =>
    intro t
    rw [show retryFailTrace ftr delay c (r + 1) t =
      ftr t ++ Ev.sleep (t + c) delay :: retryFailTrace ftr delay c r (t + c + 1)
      from rfl]
    rw [countNets_append, countNets_cons, ih (t + c + 1), hn t]
    simp [Ev.isNet]
    ring

lemma retryAttempts_fail_ex
    (fn : Nat → Except String (Option FetchResult) × List Ev × Nat)
    (delay : Int)
    (hfn : ∀ t, ∃ e evs t', fn t = (Except.error e, evs, t')) :
    ∀ r t, ∃ e evs t',
      retryAttempts fn delay (r + 1) t = (Except.error e, evs, t') := by
  intro r
  induction r with
  | zero =>
    intro t
    obtain ⟨e, evs, t', h⟩ := hfn t
    exact ⟨e, evs, t', by rw [retryAttempts_succ_def, h]; simp⟩
  | succ r ih =>
    intro t
    obtain ⟨e, evs, t', h⟩ := hfn t
    obtain ⟨e2, evs2, t2, h2⟩ := ih (t' + 1)
    refine ⟨e2, evs ++ Ev.sleep t' delay :: evs2, t2, ?_⟩
    rw [retryAttempts_succ_def, h]
    simp [h2]

lemma fetchAttempts_fail_ex (env : Env) (url : String) (delay : Int)
    (hab : ∀ s, env.aborted s = false)
    (hor : ∀ s, ∃ e, env.oracle s url = Except.error e) :
    ∀ r t, ∃ e evs t',
      fetchAttempts env url delay (r + 1) t = (Except.error e, evs, t') := by
  intro r
  induction r with
  | zero =>
    intro t
    obtain ⟨e, he⟩ := hor t
    refine ⟨e, [Ev.net t url], t + 1, ?_⟩
    rw [fetchAttempts_succ_def, fetchPrim_live env url t (hab t), he]
    simp [hab]
  | succ r ih =>
    intro t
    obtain ⟨e, he⟩ := hor t
    obtain ⟨e2, evs2, t2, h2⟩ := ih (t + 2)
    refine ⟨e2, [Ev.net t url] ++ Ev.sleep (t + 1) delay :: evs2, t2, ?_⟩
    rw [fetchAttempts_succ_def, fetchPrim_live env url t (hab t), he]
    simp [hab, h2]

lemma fetchUnit_natCast (env : Env) (url : String) (delay : Int) (k t : Nat) :
    fetchUnit env url (k : Int) delay t =
      retryAttempts (fun t0 => fetchAttempts env url delay k t0) delay k t := by
  simp [fetchUnit, retryWithDelay, fetchLighthouseScore, Int.toNat_natCast]

lemma fetchUnit_ok_head (env : Env) (url : String) (delay : Int)
    (d : FetchResult) (k t : Nat) (hk : 1 ≤ k)
    (hab : env.aborted t = false)
    (hd : env.oracle t url = Except.ok d) :
    fetchUnit env url (k : Int) delay t =
      (Except.ok (some d), [Ev.net t url], t + 1) := by
  obtain ⟨r, rfl⟩ : ∃ r, k = r + 1 := ⟨k - 1, by omega⟩
  rw [fetchUnit_natCast]
  exact retryAttempts_ok_head _ delay r t (t + 1) (some d) [Ev.net t url]
    (fetchAttempts_ok_head env url delay d r t hab hd)

lemma fetchUnit_fail_ex (env : Env) (url : String) (delay : Int) (k t : Nat)
    (hk : 1 ≤ k)
    (hab : ∀ s, env.aborted s = false)
    (hor : ∀ s, ∃ e, env.oracle s url = Except.error e) :
    ∃ e evs t', fetchUnit env url (k : Int) delay t =
      (Except.error e, evs, t') := by
  obtain ⟨r, rfl⟩ : ∃ r, k = r + 1 := ⟨k - 1, by omega⟩
  rw [fetchUnit_natCast]
  exact retryAttempts_fail_ex _ delay
    (fun s => fetchAttempts_fail_ex env url delay hab hor r s) r t

lemma fetchUnit_fail_counts (env : Env) (url : String) (delay : Int)
    (errF : Nat → String) (k t : Nat) (hk : 1 ≤ k)
    (hab : ∀ s, env.aborted s = false)
    (hor : ∀ s, env.oracle s url = Except.error (errF s)) :
    ∃ e tr t', fetchUnit env url (k : Int) delay t = (Except.error e, tr, t') ∧
      countNets tr = k * k := by
  obtain ⟨r, rfl⟩ : ∃ r, k = r + 1 := ⟨k - 1, by omega⟩
  rw [fetchUnit_natCast]
  have hfn : ∀ s, fetchAttempts env url delay (r + 1) s =
      (Except.error (errF (s + 2 * r)), failTraceF url delay (r + 1) s,
        s + (2 * r + 1)) := by
    intro s
    rw [fetchAttempts_fail env url delay errF hab hor r s]
    rw [Nat.add_assoc]
  have h := retryAttempts_fail _ delay (fun s => errF (s + 2 * r))
    (fun s => failTraceF url delay (r + 1) s) (2 * r + 1) hfn r t
  refine ⟨_, _, _, h, ?_⟩
  rw [countNets_retryFailTrace _ delay (2 * r + 1) (r + 1)
    (fun s => countNets_failTraceF url delay r s) r t]

/-! ### Step lemmas for `runPass` -/

lemma runPass_nil (env : Env) (retries delay : Int) (t : Nat) :
    runPass env retries delay [] t = ⟨0, 0, [], [], [], false, [], t⟩ := rfl

lemma runPass_cons_ok (env : Env) (retries delay : Int) (p : PageConfig)
    (rest : List PageConfig) (t t1 : Nat) (d : FetchResult)
    (evs : List Ev)
    (hf : fetchUnit env p.url retries delay t = (Except.ok (some d), evs, t1))
    (h1 : env.saveRawR t1 = Except.ok ())
    (h2 : env.saveCsvR (t1 + 1) = Except.ok ()) :
    runPass env retries delay (p :: rest) t =
      ⟨(runPass env retries delay rest (t1 + 2)).successCount + 1,
        (runPass env retries delay rest (t1 + 2)).failureCount,
        (runPass env retries delay rest (t1 + 2)).failedPages,
        p :: (runPass env retries delay rest (t1 + 2)).succeededPages,
        (runPass env retries delay rest (t1 + 2)).unprocessed,
        (runPass env retries delay rest (t1 + 2)).cancelled,
        evs ++ [Ev.persistRaw t1 (some d) true] ++
          [Ev.persistCsv (t1 + 1) (some d) true] ++
          (runPass env retries delay rest (t1 + 2)).trace,
        (runPass env retries delay rest (t1 + 2)).clock⟩ := by
  simp only [runPass, hf, saveResults, saveMetricsToCSV, h1, h2, exceptOk]

lemma runPass_cons_err (env : Env) (retries delay : Int) (p : PageConfig)
    (rest : List PageConfig) (t t1 : Nat) (e : String) (evs : List Ev)
    (hf : fetchUnit env p.url retries delay t = (Except.error e, evs, t1))
    (hlive : env.aborted t1 = false) :
    runPass env retries delay (p :: rest) t =
      ⟨(runPass env retries delay rest t1).successCount,
        (runPass env retries delay rest t1).failureCount + 1,
        p :: (runPass env retries delay rest t1).failedPages,
        (runPass env retries delay rest t1).succeededPages,
        (runPass env retries delay rest t1).unprocessed,
        (runPass env retries delay rest t1).cancelled,
        evs ++ (runPass env retries delay rest t1).trace,
        (runPass env retries delay rest t1).clock⟩ := by
  simp only [runPass, hf, hlive, Bool.false_eq_true, if_false]

lemma runPass_cons_cancel (env : Env) (retries delay : Int) (p : PageConfig)
    (rest : List PageConfig) (t t1 : Nat) (e : String) (evs : List Ev)
    (hf : fetchUnit env p.url retries delay t = (Except.error e, evs, t1))
    (habt : env.aborted t1 = true) :
    runPass env retries delay (p :: rest) t =
      ⟨0, 0, [], [], p :: rest, true, evs, t1⟩ := by
  simp only [runPass, hf, habt, if_true]

lemma runPass_cons_rawfail (env : Env) (retries delay : Int) (p : PageConfig)
    (rest : List PageConfig) (t t1 : Nat) (d : Option FetchResult)
    (evs : List Ev) (msg : String)
    (hf : fetchUnit env p.url retries delay t = (Except.ok d, evs, t1))
    (h1 : env.saveRawR t1 = Except.error msg)
    (hlive : env.aborted (t1 + 1) = false) :
    runPass env retries delay (p :: rest) t =
      ⟨(runPass env retries delay rest (t1 + 1)).successCount,
        (runPass env retries delay rest (t1 + 1)).failureCount + 1,
        p :: (runPass env retries delay rest (t1 + 1)).failedPages,
        (runPass env retries delay rest (t1 + 1)).succeededPages,
        (runPass env retries delay rest (t1 + 1)).unprocessed,
        (runPass env retries delay rest (t1 + 1)).cancelled,
        evs ++ [Ev.persistRaw t1 d false] ++
          (runPass env retries delay rest (t1 + 1)).trace,
        (runPass env retries delay rest (t1 + 1)).clock⟩ := by
  simp only [runPass, hf, saveResults, h1, exceptOk, hlive, Bool.false_eq_true,
    if_false]

lemma runPass_cons_rawfail_cancel (env : Env) (retries delay : Int)
    (p : PageConfig) (rest : List PageConfig) (t t1 : Nat)
    (d : Option FetchResult) (evs : List Ev) (msg : String)
    (hf : fetchUnit env p.url retries delay t = (Except.ok d, evs, t1))
    (h1 : env.saveRawR t1 = Except.error msg)
    (habt : env.aborted (t1 + 1) = true) :
    runPass env retries delay (p :: rest) t =
      ⟨0, 0, [], [], p :: rest, true, evs ++ [Ev.persistRaw t1 d false],
        t1 + 1⟩ := by
  simp only [runPass, hf, saveResults, h1, exceptOk, habt, if_true]

lemma runPass_cons_csvfail (env : Env) (retries delay : Int) (p : PageConfig)
    (rest : List PageConfig) (t t1 : Nat) (d : FetchResult)
    (evs : List Ev) (msg : String)
    (hf : fetchUnit env p.url retries delay t = (Except.ok (some d), evs, t1))
    (h1 : env.saveRawR t1 = Except.ok ())
    (h2 : env.saveCsvR (t1 + 1) = Except.error msg)
    (hlive : env.aborted (t1 + 2) = false) :
    runPass env retries delay (p :: rest) t =
      ⟨(runPass env retries delay rest (t1 + 2)).successCount,
        (runPass env retries delay rest (t1 + 2)).failureCount + 1,
        p :: (runPass env retries delay rest (t1 + 2)).failedPages,
        (runPass env retries delay rest (t1 + 2)).succeededPages,
        (runPass env retries delay rest (t1 + 2)).unprocessed,
        (runPass env retries delay rest (t1 + 2)).cancelled,
        evs ++ [Ev.persistRaw t1 (some d) true] ++
          [Ev.persistCsv (t1 + 1) (some d) false] ++
          (runPass env retries delay rest (t1 + 2)).trace,
        (runPass env retries delay rest (t1 + 2)).clock⟩ := by
  simp only [runPass, hf, saveResults, saveMetricsToCSV, h1, h2, exceptOk,
    hlive, Bool.false_eq_true, if_false]

lemma runPass_cons_csvfail_cancel (env : Env) (retries delay : Int)
    (p : PageConfig) (rest : List PageConfig) (t t1 : Nat)
    (d : FetchResult) (evs : List Ev) (msg : String)
    (hf : fetchUnit env p.url retries delay t = (Except.ok (some d), evs, t1))
    (h1 : env.saveRawR t1 = Except.ok ())
    (h2 : env.saveCsvR (t1 + 1) = Except.error msg)
    (habt : env.aborted (t1 + 2) = true) :
    runPass env retries delay (p :: rest) t =
      ⟨0, 0, [], [], p :: rest, true,
        evs ++ [Ev.persistRaw t1 (some d) true] ++
          [Ev.persistCsv (t1 + 1) (some d) false],
        t1 + 2⟩ := by
  simp only [runPass, hf, saveResults, saveMetricsToCSV, h1, h2, exceptOk,
    habt, if_true]

lemma runPass_cons_undef (env : Env) (retries delay : Int) (p : PageConfig)
    (rest : List PageConfig) (t t1 : Nat) (evs : List Ev)
    (hf : fetchUnit env p.url retries delay t = (Except.ok none, evs, t1))
    (h1 : env.saveRawR t1 = Except.ok ())
    (hlive : env.aborted (t1 + 2) = false) :
    runPass env retries delay (p :: rest) t =
      ⟨(runPass env retries delay rest (t1 + 2)).successCount,
        (runPass env retries delay rest (t1 + 2)).failureCount + 1,
        p :: (runPass env retries delay rest (t1 + 2)).failedPages,
        (runPass env retries delay rest (t1 + 2)).succeededPages,
        (runPass env retries delay rest (t1 + 2)).unprocessed,
        (runPass env retries delay rest (t1 + 2)).cancelled,
        evs ++ [Ev.persistRaw t1 none true] ++
          [Ev.persistCsv (t1 + 1) none false] ++
          (runPass env retries delay rest (t1 + 2)).trace,
        (runPass env retries delay rest (t1 + 2)).clock⟩ := by
  simp only [runPass, hf, saveResults, saveMetricsToCSV, h1, exceptOk,
    hlive, Bool.false_eq_true, if_false]

lemma runPass_cons_undef_cancel (env : Env) (retries delay : Int)
    (p : PageConfig) (rest : List PageConfig) (t t1 : Nat) (evs : List Ev)
    (hf : fetchUnit env p.url retries delay t = (Except.ok none, evs, t1))
    (h1 : env.saveRawR t1 = Except.ok ())
    (habt : env.aborted (t1 + 2) = true) :
    runPass env retries delay (p :: rest) t =
      ⟨0, 0, [], [], p :: rest, true,
        evs ++ [Ev.persistRaw t1 none true] ++
          [Ev.persistCsv (t1 + 1) none false],
        t1 + 2⟩ := by
  simp only [runPass, hf, saveResults, saveMetricsToCSV, h1, exceptOk,
    habt, if_true]

/-! ### Network requests happen only while the signal is unset -/

/-- Every network request of a trace was issued at a clock where the abort
signal was unset. -/
def NetsLive (env : Env) (l : List Ev) : Prop :=
  ∀ e ∈ l, e.isNet = true → env.aborted e.time = false

lemma netsLive_nil (env : Env) : NetsLive env [] := by
  intro e he
  simp at he

lemma netsLive_append (env : Env) {l₁ l₂ : List Ev}
    (h1 : NetsLive env l₁) (h2 : NetsLive env l₂) :
    NetsLive env (l₁ ++ l₂) := by
  intro e he hn
  rcases List.mem_append.mp he with h | h
  · exact h1 e h hn
  · exact h2 e h hn

lemma netsLive_cons (env : Env) {e : Ev} {l : List Ev}
    (he : e.isNet = true → env.aborted e.time = false)
    (h : NetsLive env l) : NetsLive env (e :: l) := by
  intro x hx hn
  rcases List.mem_cons.mp hx with rfl | hx
  · exact he hn
  · exact h x hx hn

lemma netsLive_fetchPrim (env : Env) (url : String) (t : Nat) :
    NetsLive env (fetchPrim env url t).2.1 := by
  unfold fetchPrim
  cases hab : env.aborted t with
  | false =>
    simp only [Bool.false_eq_true, if_false]
    exact netsLive_cons env (fun _ => by simpa [Ev.time] using hab)
      (netsLive_nil env)
  | true =>
    simp only [if_true]
    exact netsLive_cons env (fun h => by simp [Ev.isNet] at h) (netsLive_nil env)

lemma netsLive_fetchAttempts (env : Env) (url : String) (delay : Int) :
    ∀ r t, NetsLive env (fetchAttempts env url delay r t).2.1 := by
  intro r
  induction r with
  | zero => intro t; exact netsLive_nil env
  | succ r ih =>
    intro t
    rw [fetchAttempts_succ_def]
    rcases hp : fetchPrim env url t with ⟨res, evs, t1⟩
    have hevs : NetsLive env evs := by
      have := netsLive_fetchPrim env url t
      rwa [hp] at this
    cases res with
    | ok d => simpa using hevs
    | error e =>
      simp only
      cases habt : env.aborted t1 with
      | true => simpa [habt] using hevs
      | false =>
        simp only [habt, Bool.false_eq_true, if_false]
        by_cases hr : r = 0
        · simpa [hr] using hevs
        · simp only [hr, if_false]
          exact netsLive_append env hevs
            (netsLive_cons env (fun h => by simp [Ev.isNet] at h) (ih (t1 + 1)))

lemma netsLive_retryAttempts
    (env : Env) (fn : Nat → Except String (Option FetchResult) × List Ev × Nat)
    (delay : Int) (hfn : ∀ t, NetsLive env (fn t).2.1) :
    ∀ r t, NetsLive env (retryAttempts fn delay r t).2.1 := by
  intro r
  induction r with
  | zero => intro t; exact netsLive_nil env
  | succ r ih =>
    intro t
    rw [retryAttempts_succ_def]
    rcases hp : fn t with ⟨res, evs, t1⟩
    have hevs : NetsLive env evs := by
      have := hfn t
      rwa [hp] at this
    cases res with
    | ok v => simpa using hevs
    | error e =>
      simp only
      by_cases hr : r = 0
      · simpa [hr] using hevs
      · simp only [hr, if_false]
        exact netsLive_append env hevs
          (netsLive_cons env (fun h => by simp [Ev.isNet] at h) (ih (t1 + 1)))

lemma netsLive_fetchUnit (env : Env) (url : String) (retries delay : Int)
    (t : Nat) : NetsLive env (fetchUnit env url retries delay t).2.1 := by
  unfold fetchUnit retryWithDelay fetchLighthouseScore
  exact netsLive_retryAttempts env _ delay
    (fun t0 => netsLive_fetchAttempts env url delay retries.toNat t0)
    retries.toNat t

lemma netsLive_persist (env : Env) (t : Nat) (d : Option FetchResult)
    (b : Bool) (e : Ev) (he : e = Ev.persistRaw t d b ∨ e = Ev.persistCsv t d b) :
    e.isNet = true → env.aborted e.time = false := by
  rcases he with rfl | rfl <;> intro h <;> simp [Ev.isNet] at h

lemma netsLive_runPass (env : Env) (retries delay : Int) :
    ∀ (pages : List PageConfig) (t : Nat),
      NetsLive env (runPass env retries delay pages t).trace := by
  intro pages
  induction pages with
  | nil => intro t; exact netsLive_nil env
  | cons p rest ih =>
    intro t
    rcases hf : fetchUnit env p.url retries delay t with ⟨res, evs, t1⟩
    have hevs : NetsLive env evs := by
      have := netsLive_fetchUnit env p.url retries delay t
      rwa [hf] at this
    cases res with
    | error e =>
      cases habt : env.aborted t1 with
      | false =>
        rw [runPass_cons_err env retries delay p rest t t1 e evs hf habt]
        exact netsLive_append env hevs (ih t1)
      | true =>
        rw [runPass_cons_cancel env retries delay p rest t t1 e evs hf habt]
        exact hevs
    | ok d =>
      rcases h1 : env.saveRawR t1 with msg | u
      case error =>
        cases habt : env.aborted (t1 + 1) with
        | false =>
          rw [runPass_cons_rawfail env retries delay p rest t t1 d evs msg hf
            h1 habt]
          refine netsLive_append env (netsLive_append env hevs ?_) (ih (t1 + 1))
          exact netsLive_cons env
            (netsLive_persist env t1 d false _ (Or.inl rfl)) (netsLive_nil env)
        | true =>
          rw [runPass_cons_rawfail_cancel env retries delay p rest t t1 d evs
            msg hf h1 habt]
          refine netsLive_append env hevs ?_
          exact netsLive_cons env
            (netsLive_persist env t1 d false _ (Or.inl rfl)) (netsLive_nil env)
      case ok =>
        cases u
        cases d with
        | none =>
          cases habt : env.aborted (t1 + 2) with
          | false =>
            rw [runPass_cons_undef env retries delay p rest t t1 evs hf h1 habt]
            refine netsLive_append env (netsLive_append env (netsLive_append env
              hevs ?_) ?_) (ih (t1 + 2))
            · exact netsLive_cons env
                (netsLive_persist env t1 none true _ (Or.inl rfl))
                (netsLive_nil env)
            · exact netsLive_cons env
                (netsLive_persist env (t1 + 1) none false _ (Or.inr rfl))
                (netsLive_nil env)
          | true =>
            rw [runPass_cons_undef_cancel env retries delay p rest t t1 evs hf
              h1 habt]
            refine netsLive_append env (netsLive_append env hevs ?_) ?_
            · exact netsLive_cons env
                (netsLive_persist env t1 none true _ (Or.inl rfl))
                (netsLive_nil env)
            · exact netsLive_cons env
                (netsLive_persist env (t1 + 1) none false _ (Or.inr rfl))
                (netsLive_nil env)
        | some dd =>
          rcases h2 : env.saveCsvR (t1 + 1) with msg2 | u2
          case error =>
            cases habt : env.aborted (t1 + 2) with
            | false =>
              rw [runPass_cons_csvfail env retries delay p rest t t1 dd evs
                msg2 hf h1 h2 habt]
              refine netsLive_append env (netsLive_append env (netsLive_append
                env hevs ?_) ?_) (ih (t1 + 2))
              · exact netsLive_cons env
                  (netsLive_persist env t1 (some dd) true _ (Or.inl rfl))
                  (netsLive_nil env)
              · exact netsLive_cons env
                  (netsLive_persist env (t1 + 1) (some dd) false _ (Or.inr rfl))
                  (netsLive_nil env)
            | true =>
              rw [runPass_cons_csvfail_cancel env retries delay p rest t t1 dd
                evs msg2 hf h1 h2 habt]
              refine netsLive_append env (netsLive_append env hevs ?_) ?_
              · exact netsLive_cons env
                  (netsLive_persist env t1 (some dd) true _ (Or.inl rfl))
                  (netsLive_nil env)
              · exact netsLive_cons env
                  (netsLive_persist env (t1 + 1) (some dd) false _ (Or.inr rfl))
                  (netsLive_nil env)
          case ok =>
            cases u2
            rw [runPass_cons_ok env retries delay p rest t t1 dd evs hf h1 h2]
            refine netsLive_append env (netsLive_append env (netsLive_append env
              hevs ?_) ?_) (ih (t1 + 2))
            · exact netsLive_cons env
                (netsLive_persist env t1 (some dd) true _ (Or.inl rfl))
                (netsLive_nil env)
            · exact netsLive_cons env
                (netsLive_persist env (t1 + 1) (some dd) true _ (Or.inr rfl))
                (netsLive_nil env)

lemma netsLive_monitor (env : Env) (retries delay : Int)
    (pages : List PageConfig) (confirm : Bool) :
    NetsLive env (monitorTrace (monitor env retries delay pages confirm)) := by
  simp only [monitorTrace, monitor]
  by_cases hc : 0 < (runPass env retries delay pages 0).failedPages.length ∧
      confirm = true
  · simp only [if_pos hc]
    exact netsLive_append env (netsLive_runPass env retries delay pages 0)
      (netsLive_runPass env retries delay _ _)
  · simp only [if_neg hc]
    exact netsLive_append env (netsLive_runPass env retries delay pages 0)
      (netsLive_nil env)

/-! ### Concrete environments for witnesses and counterexamples -/

/-- A first sample page. -/
def pgA : PageConfig := ⟨"c", "A", "a"⟩

/-- A second sample page. -/
def pgB : PageConfig := ⟨"c", "B", "b"⟩

/-- Persistence that always succeeds. -/
def okPersist : Nat → Except String Unit := fun _ => Except.ok ()

/-- Environment where every network call fails and nothing is ever aborted. -/
def envAllFail : Env :=
  ⟨fun _ _ => Except.error "boom", fun _ => false, okPersist, okPersist⟩

/-! ### Claim theorems -/

/-- C2: `fetchWithRetry` with `maxAttempts = k ≥ 1` and inter-attempt wait
`delay` on a target whose remote call fails on every attempt, with
cancellation never requested, invokes the remote call exactly `k` times,
waits `delay` in each of the `k - 1` gaps between consecutive attempts, and
fails with an Exhausted outcome carrying the last underlying error (the error
of the `k`-th attempt, issued at clock `t + 2 * (k - 1)`). -/
theorem c2_fetch_retry_exhausts (env : Env) (url : String) (delay : Int)
    (t k : Nat) (errF : Nat → String) (hk : 1 ≤ k)
    (hab : ∀ s, env.aborted s = false)
    (hor : ∀ s, env.oracle s url = Except.error (errF s)) :
    fetchLighthouseScore env url (k : Int) delay t =
      (Except.error (errF (t + 2 * (k - 1))), failTraceF url delay k t,
        t + 2 * (k - 1) + 1) ∧
    countNets (failTraceF url delay k t) = k ∧
    countSleeps (failTraceF url delay k t) = k - 1 ∧
    (∀ e ∈ failTraceF url delay k t, e.isSleep = true →
      ∃ s, e = Ev.sleep s delay) := by
  obtain ⟨r, rfl⟩ : ∃ r, k = r + 1 := ⟨k - 1, by omega⟩
  simp only [Nat.add_sub_cancel]
  refine ⟨?_, countNets_failTraceF url delay r t, ?_,
    sleeps_failTraceF url delay (r + 1) t⟩
  · rw [show fetchLighthouseScore env url ((r + 1 : Nat) : Int) delay t =
      fetchAttempts env url delay (r + 1) t from by
        simp [fetchLighthouseScore, Int.toNat_natCast]]
    exact fetchAttempts_fail env url delay errF hab hor r t
  · exact countSleeps_failTraceF url delay r t

/-- Witness for C2 at `k = 2`, `delay = 7`: two network calls, one wait of
7 ms between them, Exhausted with the last error. -/
theorem c2_witness :
    1 ≤ 2 ∧
    fetchLighthouseScore envAllFail "u" ((2 : Nat) : Int) 7 0 =
      (Except.error "boom", [Ev.net 0 "u", Ev.sleep 1 7, Ev.net 2 "u"], 3) ∧
    countNets [Ev.net 0 "u", Ev.sleep 1 7, Ev.net 2 "u"] = 2 ∧
    countSleeps [Ev.net 0 "u", Ev.sleep 1 7, Ev.net 2 "u"] = 1 := by
  have h := c2_fetch_retry_exhausts envAllFail "u" 7 0 2 (fun _ => "boom")
    (by omega) (fun _ => rfl) (fun _ => rfl)
  refine ⟨by omega, ?_, ?_, ?_⟩
  · have h1 := h.1
    rw [show failTraceF "u" 7 2 0 =
      [Ev.net 0 "u", Ev.sleep 1 7, Ev.net 2 "u"] from rfl] at h1
    simpa using h1
  · have h2 := h.2.1
    rwa [show failTraceF "u" 7 2 0 =
      [Ev.net 0 "u", Ev.sleep 1 7, Ev.net 2 "u"] from rfl] at h2
  · have h3 := h.2.2.1
    rwa [show failTraceF "u" 7 2 0 =
      [Ev.net 0 "u", Ev.sleep 1 7, Ev.net 2 "u"] from rfl] at h3

/-- C9: with `maxAttempts ≤ 0` (outside the stated precondition) the attempt
loop body never runs: no remote call is made and the operation resolves
successfully with an undefined result (`Except.ok none`) instead of failing,
so downstream persistence receives the undefined data — the raw-result save
is invoked with `none` (whatever its write then does), and when that write
succeeds the metrics append is invoked with `none` and throws its
deterministic TypeError, so the target is then recorded as a failure, never
as a success.  No hypothesis is made about the persistence outcomes. -/
theorem c9_nonpositive_attempts (env : Env) (url : String)
    (retries delay : Int) (t : Nat) (p : PageConfig)
    (hr : retries ≤ 0)
    (hab : ∀ s, env.aborted s = false) :
    fetchLighthouseScore env url retries delay t = (Except.ok none, [], t) ∧
    retryWithDelay (fun t0 => fetchLighthouseScore env url retries delay t0)
      retries delay t = (Except.ok none, [], t) ∧
    (runPass env retries delay [p] t).successCount = 0 ∧
    (runPass env retries delay [p] t).failureCount = 1 ∧
    (runPass env retries delay [p] t).failedPages = [p] ∧
    (runPass env retries delay [p] t).trace.head? =
      some (Ev.persistRaw t none (exceptOk (env.saveRawR t))) ∧
    (env.saveRawR t = Except.ok () →
      (runPass env retries delay [p] t).trace =
        [Ev.persistRaw t none true, Ev.persistCsv (t + 1) none false]) := by
  have h0 : retries.toNat = 0 := Int.toNat_of_nonpos hr
  have hfetch : fetchLighthouseScore env url retries delay t =
      (Except.ok none, [], t) := by
    simp [fetchLighthouseScore, h0, fetchAttempts]
  have hunit : fetchUnit env p.url retries delay t =
      (Except.ok none, [], t) := by
    simp [fetchUnit, retryWithDelay, h0, retryAttempts]
  refine ⟨hfetch, by simp [retryWithDelay, h0, retryAttempts], ?_⟩
  rcases h1 : env.saveRawR t with msg | u
  case error =>
    have hpass := runPass_cons_rawfail env retries delay p [] t t none [] msg
      hunit h1 (hab (t + 1))
    refine ⟨?_, ?_, ?_, ?_, ?_⟩
    · rw [hpass]; simp [runPass_nil]
    · rw [hpass]; simp [runPass_nil]
    · rw [hpass]; simp [runPass_nil]
    · rw [hpass]; simp [runPass_nil, h1, exceptOk]
    · intro hh
      simp at hh
  case ok =>
    cases u
    have hpass := runPass_cons_undef env retries delay p [] t t [] hunit h1
      (hab (t + 2))
    refine ⟨?_, ?_, ?_, ?_, ?_⟩
    · rw [hpass]; simp [runPass_nil]
    · rw [hpass]; simp [runPass_nil]
    · rw [hpass]; simp [runPass_nil]
    · rw [hpass]; simp [runPass_nil, h1, exceptOk]
    · intro _; rw [hpass]; simp [runPass_nil]

/-- Witness for C9 at `retries = -1`. -/
theorem c9_witness :
    (-1 : Int) ≤ 0 ∧
    fetchLighthouseScore envAllFail "u" (-1) 5 0 = (Except.ok none, [], 0) ∧
    (runPass envAllFail (-1) 5 [pgA] 0).successCount = 0 ∧
    (runPass envAllFail (-1) 5 [pgA] 0).failureCount = 1 ∧
    (runPass envAllFail (-1) 5 [pgA] 0).trace =
      [Ev.persistRaw 0 none true, Ev.persistCsv 1 none false] := by
  have h := c9_nonpositive_attempts envAllFail "u" (-1) 5 0 pgA
    (by omega) (fun _ => rfl)
  exact ⟨by omega, h.1, h.2.2.1, h.2.2.2.1, h.2.2.2.2.2.2 rfl⟩

/-- C1: a pass with `maxAttempts = k ≥ 1` over targets classified by `fails`
(failing targets always error on the remote call with a non-cancellation
error, the others always succeed), with no cancellation and persistence
always succeeding, reports `successCount = N - M`, `failureCount = M`, and
`failedPages` equal to the failing subset in the original relative order. -/
theorem c1_first_pass_summary (env : Env) (delay : Int) (k : Nat)
    (fails : PageConfig → Bool) (hk : 1 ≤ k)
    (hab : ∀ s, env.aborted s = false)
    (hpr : ∀ s, env.saveRawR s = Except.ok ())
    (hpc : ∀ s, env.saveCsvR s = Except.ok ()) :
    ∀ (pages : List PageConfig) (t : Nat),
      (∀ p ∈ pages,
        (fails p = true → ∀ s, ∃ e, env.oracle s p.url = Except.error e) ∧
        (fails p = false → ∀ s, ∃ d, env.oracle s p.url = Except.ok d)) →
      (runPass env (k : Int) delay pages t).successCount =
        (pages.filter (fun p => !fails p)).length ∧
      (runPass env (k : Int) delay pages t).failureCount =
        (pages.filter fails).length ∧
      (runPass env (k : Int) delay pages t).failedPages = pages.filter fails ∧
      (runPass env (k : Int) delay pages t).cancelled = false := by
  intro pages
  induction pages with
  | nil => intro t _; simp [runPass_nil]
  | cons p rest ih =>
    intro t hcls
    have hp := hcls p (List.mem_cons_self p rest)
    have hrest : ∀ q ∈ rest,
        (fails q = true → ∀ s, ∃ e, env.oracle s q.url = Except.error e) ∧
        (fails q = false → ∀ s, ∃ d, env.oracle s q.url = Except.ok d) :=
      fun q hq => hcls q (List.mem_cons_of_mem p hq)
    cases hfp : fails p with
    | true =>
      obtain ⟨e, evs, t', hf⟩ :=
        fetchUnit_fail_ex env p.url delay k t hk hab (hp.1 hfp)
      rw [runPass_cons_err env (k : Int) delay p rest t t' e evs hf (hab t')]
      obtain ⟨ih1, ih2, ih3, ih4⟩ := ih t' hrest
      simp only [List.filter_cons, hfp, Bool.not_true, if_true, if_false,
        List.length_cons]
      exact ⟨by simpa using ih1, by simpa using ih2, by simpa using ih3,
        by simpa using ih4⟩
    | false =>
      obtain ⟨d, hd⟩ := hp.2 hfp t
      have hf := fetchUnit_ok_head env p.url delay d k t hk (hab t) hd
      rw [runPass_cons_ok env (k : Int) delay p rest t (t + 1) d
        [Ev.net t p.url] hf (hpr (t + 1)) (hpc (t + 1 + 1))]
      obtain ⟨ih1, ih2, ih3, ih4⟩ := ih (t + 1 + 2) hrest
      simp only [List.filter_cons, hfp, Bool.not_false, if_true, if_false,
        List.length_cons]
      exact ⟨by simpa using ih1, by simpa using ih2, by simpa using ih3,
        by simpa using ih4⟩

/-- Environment for the C1 witness: the url "b" always fails, every other
url always succeeds. -/
def envBFails : Env :=
  ⟨fun _ u => if u = "b" then Except.error "x" else Except.ok "d",
    fun _ => false, okPersist, okPersist⟩

/-- Witness for C1: two targets, the second failing, `k = 1`. -/
theorem c1_witness :
    (runPass envBFails ((1 : Nat) : Int) 0 [pgA, pgB] 0).successCount =
      ([pgA, pgB].filter (fun p => !(p.url == "b"))).length ∧
    (runPass envBFails ((1 : Nat) : Int) 0 [pgA, pgB] 0).failureCount =
      ([pgA, pgB].filter (fun p => p.url == "b")).length ∧
    (runPass envBFails ((1 : Nat) : Int) 0 [pgA, pgB] 0).failedPages =
      [pgA, pgB].filter (fun p => p.url == "b") ∧
    (runPass envBFails ((1 : Nat) : Int) 0 [pgA, pgB] 0).cancelled = false := by
  refine c1_first_pass_summary envBFails 0 1 (fun p => p.url == "b")
    (by omega) (fun _ => rfl) (fun _ => rfl) (fun _ => rfl) [pgA, pgB] 0 ?_
  intro p hp
  rcases List.mem_cons.mp hp with rfl | hp
  · refine ⟨fun h => ?_, fun _ s => ⟨"d", ?_⟩⟩
    · simp [pgA] at h
    · simp [envBFails, pgA]
  · rcases List.mem_cons.mp hp with rfl | hp
    · refine ⟨fun _ s => ⟨"x", ?_⟩, fun h => ?_⟩
      · simp [envBFails, pgB]
      · simp [pgB] at h
    · simp at hp

/-- Per-pass bookkeeping invariant of claim C7, for an arbitrary environment
(cancellation included): the counters match the succeeded/failed lists, every
target lands in exactly one of succeeded / failed / unprocessed (as a
permutation of the pass input), the three class sizes sum to the number of
targets, and a cancelled pass leaves at least one target uncounted. -/
def PassPartitioned (pages : List PageConfig) (r : PassResult) : Prop :=
  r.successCount = r.succeededPages.length ∧
  r.failureCount = r.failedPages.length ∧
  List.Perm (r.succeededPages ++ r.failedPages ++ r.unprocessed) pages ∧
  r.successCount + r.failureCount + r.unprocessed.length = pages.length ∧
  (r.cancelled = true → r.successCount + r.failureCount < pages.length)

/-- C7: in every pass — including one ended by cancellation — every target
falls into exactly one of succeeded / failed / unprocessed-due-to-
cancellation, the class sizes sum to the number of targets, and a Cancelled
outcome stops iteration without counting the current or remaining targets. -/
theorem c7_pass_partition (env : Env) (retries delay : Int) :
    ∀ (pages : List PageConfig) (t : Nat),
      PassPartitioned pages (runPass env retries delay pages t) := by
  intro pages
  induction pages with
  | nil =>
    intro t
    refine ⟨by simp [runPass_nil], by simp [runPass_nil], ?_, ?_, ?_⟩
    · simp [runPass_nil]
    · simp [runPass_nil]
    · intro h; simp [runPass_nil] at h
  | cons p rest ih =>
    intro t
    rcases hf : fetchUnit env p.url retries delay t with ⟨res, evs, t1⟩
    cases res with
    | error e =>
      cases habt : env.aborted t1 with
      | false =>
        rw [runPass_cons_err env retries delay p rest t t1 e evs hf habt]
        obtain ⟨ih1, ih2, ih3, ih4, ih5⟩ := ih t1
        refine ⟨by simpa using ih1, by simpa using ih2, ?_, ?_, ?_⟩
        · refine List.Perm.trans ?_ (ih3.cons p)
          simp only [List.cons_append, List.append_assoc]
          exact List.perm_middle
        · simp only [List.length_cons]
          omega
        · intro hc
          simp only at hc
          have := ih5 hc
          simp only [List.length_cons]
          omega
      | true =>
        rw [runPass_cons_cancel env retries delay p rest t t1 e evs hf habt]
        refine ⟨by simp, by simp, by simp, by simp, ?_⟩
        intro _
        simp only [List.length_cons]
        omega
    | ok d =>
      rcases h1 : env.saveRawR t1 with msg | u
      case error =>
        cases habt : env.aborted (t1 + 1) with
        | false =>
          rw [runPass_cons_rawfail env retries delay p rest t t1 d evs msg hf
            h1 habt]
          obtain ⟨ih1, ih2, ih3, ih4, ih5⟩ := ih (t1 + 1)
          refine ⟨by simpa using ih1, by simpa using ih2, ?_, ?_, ?_⟩
          · refine List.Perm.trans ?_ (ih3.cons p)
            simp only [List.cons_append, List.append_assoc]
            exact List.perm_middle
          · simp only [List.length_cons]
            omega
          · intro hc
            simp only at hc
            have := ih5 hc
            simp only [List.length_cons]
            omega
        | true =>
          rw [runPass_cons_rawfail_cancel env retries delay p rest t t1 d evs
            msg hf h1 habt]
          refine ⟨by simp, by simp, by simp, by simp, ?_⟩
          intro _
          simp only [List.length_cons]
          omega
      case ok =>
        cases u
        cases d with
        | none =>
          cases habt : env.aborted (t1 + 2) with
          | false =>
            rw [runPass_cons_undef env retries delay p rest t t1 evs hf h1
              habt]
            obtain ⟨ih1, ih2, ih3, ih4, ih5⟩ := ih (t1 + 2)
            refine ⟨by simpa using ih1, by simpa using ih2, ?_, ?_, ?_⟩
            · refine List.Perm.trans ?_ (ih3.cons p)
              simp only [List.cons_append, List.append_assoc]
              exact List.perm_middle
            · simp only [List.length_cons]
              omega
            · intro hc
              simp only at hc
              have := ih5 hc
              simp only [List.length_cons]
              omega
          | true =>
            rw [runPass_cons_undef_cancel env retries delay p rest t t1 evs hf
              h1 habt]
            refine ⟨by simp, by simp, by simp, by simp, ?_⟩
            intro _
            simp only [List.length_cons]
            omega
        | some dd =>
          rcases h2 : env.saveCsvR (t1 + 1) with msg2 | u2
          case error =>
            cases habt : env.aborted (t1 + 2) with
            | false =>
              rw [runPass_cons_csvfail env retries delay p rest t t1 dd evs
                msg2 hf h1 h2 habt]
              obtain ⟨ih1, ih2, ih3, ih4, ih5⟩ := ih (t1 + 2)
              refine ⟨by simpa using ih1, by simpa using ih2, ?_, ?_, ?_⟩
              · refine List.Perm.trans ?_ (ih3.cons p)
                simp only [List.cons_append, List.append_assoc]
                exact List.perm_middle
              · simp only [List.length_cons]
                omega
              · intro hc
                simp only at hc
                have := ih5 hc
                simp only [List.length_cons]
                omega
            | true =>
              rw [runPass_cons_csvfail_cancel env retries delay p rest t t1 dd
                evs msg2 hf h1 h2 habt]
              refine ⟨by simp, by simp, by simp, by simp, ?_⟩
              intro _
              simp only [List.length_cons]
              omega
          case ok =>
            cases u2
            rw [runPass_cons_ok env retries delay p rest t t1 dd evs hf h1 h2]
            obtain ⟨ih1, ih2, ih3, ih4, ih5⟩ := ih (t1 + 2)
            refine ⟨by simpa using ih1, by simpa using ih2, ?_, ?_, ?_⟩
            · simp only [List.cons_append, List.append_assoc]
              refine List.Perm.cons p ?_
              simpa using ih3
            · simp only [List.length_cons]
              omega
            · intro hc
              simp only at hc
              have := ih5 hc
              simp only [List.length_cons]
              omega

/-- Witness for C7 on a cancelled concrete run. -/
theorem c7_witness :
    PassPartitioned [pgA]
      (runPass (⟨fun _ _ => Except.error "boom", fun s => decide (2 ≤ s),
        okPersist, okPersist⟩ : Env) 2 5 [pgA] 0) :=
  c7_pass_partition _ 2 5 [pgA] 0

/-- Environment where every network call fails and the abort signal is set
from clock 2 onward. -/
def envAbortAt2 : Env :=
  ⟨fun _ _ => Except.error "boom", fun s => decide (2 ≤ s), okPersist,
    okPersist⟩

/-- C3 counterexample: with `retries = 2` and the token set from clock 2
(during the wait after the first failed attempt), the run still performs a
wait at clock 3 (the outer `retryWithDelay` wrapper never consults the
signal) and still starts fetch invocations at clocks 2 and 4, so the claim
"once the token is set no further remote call is started and cancellation is
observed before every wait and before every new attempt" is false. -/
theorem c3_counterexample :
    ¬ postAbortQuiet envAbortAt2
      (monitorTrace (monitor envAbortAt2 2 5 [pgA] false)) := by
  decide

/-- C3 amended: once the token is set, no further network request is issued —
the fetch primitive carries the signal and refuses the request — in the
remainder of the current retry loop, for later targets, and in the retry
pass; however the outer retry wrapper still performs waits and fetch
invocations after cancellation (see the counterexample). -/
theorem c3_no_network_after_abort (env : Env) (retries delay : Int)
    (pages : List PageConfig) (confirm : Bool) :
    ∀ e ∈ monitorTrace (monitor env retries delay pages confirm),
      e.isNet = true → env.aborted e.time = false :=
  netsLive_monitor env retries delay pages confirm

/-- Witness for C3 amended: the one network request of an uncancelled
one-target run happened with the signal unset. -/
theorem c3_witness : envAllFail.aborted (Ev.time (Ev.net 0 "a")) = false := by
  have h := c3_no_network_after_abort envAllFail 1 0 [pgA] false
  exact h (Ev.net 0 "a") (by decide) rfl

/-- C4 counterexample: with `maxAttempts = 2` an always-failing target
undergoes 4 remote-call attempts in the pass, not 2: `monitor` wraps the
already-retrying `fetchLighthouseScore` in `retryWithDelay` with the same
attempt count. -/
theorem c4_counterexample :
    countNets (fetchUnit envAllFail "u" 2 7 0).2.1 = 4 ∧
    ¬ countNets (fetchUnit envAllFail "u" 2 7 0).2.1 = 2 ∧
    countNets (runPass envAllFail 2 7 [pgA] 0).trace = 4 ∧
    (runPass envAllFail 2 7 [pgA] 0).failureCount = 1 := by
  decide

/-- C4 amended: the orchestrator invokes `retryWithDelay` once per target,
but that wrapper re-invokes the already-retrying fetch up to `maxAttempts`
times, so an always-failing target (no cancellation) undergoes exactly
`maxAttempts * maxAttempts` remote-call attempts in the pass before being
recorded as failed. -/
theorem c4_attempts_squared (env : Env) (delay : Int) (t k : Nat)
    (p : PageConfig) (errF : Nat → String) (hk : 1 ≤ k)
    (hab : ∀ s, env.aborted s = false)
    (hor : ∀ s, env.oracle s p.url = Except.error (errF s)) :
    (∃ e tr t', fetchUnit env p.url (k : Int) delay t =
      (Except.error e, tr, t') ∧ countNets tr = k * k) ∧
    (runPass env (k : Int) delay [p] t).failureCount = 1 ∧
    (runPass env (k : Int) delay [p] t).failedPages = [p] ∧
    countNets (runPass env (k : Int) delay [p] t).trace = k * k := by
  obtain ⟨e, tr, t', h, hcount⟩ :=
    fetchUnit_fail_counts env p.url delay errF k t hk hab hor
  have hstep := runPass_cons_err env (k : Int) delay p [] t t' e tr h (hab t')
  refine ⟨⟨e, tr, t', h, hcount⟩, ?_, ?_, ?_⟩
  · rw [hstep]; simp [runPass_nil]
  · rw [hstep]; simp [runPass_nil]
  · rw [hstep]
    simp only [runPass_nil]
    rw [countNets_append]
    simpa [countNets] using hcount

/-- Witness for C4 amended at `k = 2`. -/
theorem c4_witness :
    1 ≤ 2 ∧
    (∃ e tr t', fetchUnit envAllFail pgA.url ((2 : Nat) : Int) 7 0 =
      (Except.error e, tr, t') ∧ countNets tr = 2 * 2) ∧
    (runPass envAllFail ((2 : Nat) : Int) 7 [pgA] 0).failureCount = 1 := by
  have h := c4_attempts_squared envAllFail 7 0 2 pgA (fun _ => "boom")
    (by omega) (fun _ => rfl) (fun _ => rfl)
  exact ⟨by omega, h.1, h.2.1⟩

/-- Environment for the C5 counterexample: every call fails, the token is set
from clock 2 (during the second target). -/
def envC5 : Env :=
  ⟨fun _ u => Except.error ("e" ++ u), fun s => decide (2 ≤ s), okPersist,
    okPersist⟩

/-- C5 counterexample: the first target fails before cancellation and the run
is then cancelled during the second target, yet the retry prompt is still
offered — the source gates the prompt only on `failedPages.length > 0`, never
on cancellation, refuting "offered exactly when failedTargets is nonempty and
the run was not cancelled". -/
theorem c5_counterexample :
    (monitor envC5 1 0 [pgA, pgB] false).first.cancelled = true ∧
    (monitor envC5 1 0 [pgA, pgB] false).first.failedPages = [pgA] ∧
    (monitor envC5 1 0 [pgA, pgB] false).promptOffered = true := by
  decide

/-- Environment for the A/B retry-pass scenario: url "a" fails during the
first pass (clocks 0 and 1) and succeeds afterwards; url "b" always fails. -/
def envAB : Env :=
  ⟨fun t u =>
    if u = "a" then (if t ≤ 1 then Except.error "e" else Except.ok "d")
    else Except.error "e",
    fun _ => false, okPersist, okPersist⟩

/-- C5 amended: the retry pass is offered exactly when `failedPages` is
nonempty (regardless of cancellation); when affirmed it runs the identical
per-target procedure over exactly `failedPages`, producing its own
independent summary; in the A/B scenario (A now succeeds, B still fails) the
retry summary is `successCount = 1, failureCount = 1, failedPages = [B]`
while the first-pass summary remains `0 / 2 / [A, B]`. -/
theorem c5_retry_pass :
    (∀ (env : Env) (retries delay : Int) (pages : List PageConfig)
      (confirm : Bool),
      (monitor env retries delay pages confirm).promptOffered = true ↔
        (monitor env retries delay pages confirm).first.failedPages ≠ []) ∧
    (∀ (env : Env) (retries delay : Int) (pages : List PageConfig),
      (monitor env retries delay pages true).first.failedPages ≠ [] →
        (monitor env retries delay pages true).retryRun =
          some (runPass env retries delay
            (monitor env retries delay pages true).first.failedPages
            (monitor env retries delay pages true).first.clock)) ∧
    (monitor envAB 1 0 [pgA, pgB] true).first.successCount = 0 ∧
    (monitor envAB 1 0 [pgA, pgB] true).first.failureCount = 2 ∧
    (monitor envAB 1 0 [pgA, pgB] true).first.failedPages = [pgA, pgB] ∧
    ((monitor envAB 1 0 [pgA, pgB] true).retryRun.map
      (fun r => (r.successCount, r.failureCount, r.failedPages))) =
      some (1, 1, [pgB]) := by
  refine ⟨?_, ?_, by decide, by decide, by decide, by decide⟩
  · intro env retries delay pages confirm
    simp only [monitor, decide_eq_true_eq]
    exact List.length_pos
  · intro env retries delay pages h
    simp only [monitor] at h ⊢
    rw [if_pos ⟨List.length_pos.mpr h, trivial⟩]

/-- Witness for C5 amended: the retry pass of the A/B scenario is the
identical per-target procedure over the first pass's `failedPages`. -/
theorem c5_witness :
    (monitor envAB 1 0 [pgA, pgB] true).retryRun =
      some (runPass envAB 1 0
        (monitor envAB 1 0 [pgA, pgB] true).first.failedPages
        (monitor envAB 1 0 [pgA, pgB] true).first.clock) := by
  have h := c5_retry_pass
  exact h.2.1 envAB 1 0 [pgA, pgB] (by decide)

/-- Environment for the C6 counterexample, raw-save case: every fetch
succeeds, the raw-save at clock 1 (the first target's persistence) fails on
disk, everything else succeeds. -/
def envRawFail1 : Env :=
  ⟨fun _ _ => Except.ok "D", fun _ => false,
    fun s => if s = 1 then Except.error "disk" else Except.ok (), okPersist⟩

/-- Environment for the C6 counterexample, metrics-append case: every fetch
succeeds, the metrics append at clock 2 (the first target's CSV row) fails on
disk, everything else succeeds. -/
def envCsvFail2 : Env :=
  ⟨fun _ _ => Except.ok "D", fun _ => false, okPersist,
    fun s => if s = 2 then Except.error "disk" else Except.ok ()⟩

/-- C6 counterexample: a persistence failure — whether of the raw-result save
or of the metrics append — for the first target is caught by the per-target
handler, so the pass does not abort: the failing persistence event (trace
index 1 resp. 2) is not the last event, the second target is still processed
(and succeeds), and the first target is counted as a failure. -/
theorem c6_counterexample :
    (runPass envRawFail1 1 0 [pgA, pgB] 0).trace.findIdx?
      (fun e => e.isPersistFail) = some 1 ∧
    abortsOnPersistFail (runPass envRawFail1 1 0 [pgA, pgB] 0).trace = false ∧
    (runPass envRawFail1 1 0 [pgA, pgB] 0).successCount = 1 ∧
    (runPass envRawFail1 1 0 [pgA, pgB] 0).failureCount = 1 ∧
    (runPass envRawFail1 1 0 [pgA, pgB] 0).failedPages = [pgA] ∧
    (runPass envCsvFail2 1 0 [pgA, pgB] 0).trace.findIdx?
      (fun e => e.isPersistFail) = some 2 ∧
    abortsOnPersistFail (runPass envCsvFail2 1 0 [pgA, pgB] 0).trace = false ∧
    (runPass envCsvFail2 1 0 [pgA, pgB] 0).successCount = 1 ∧
    (runPass envCsvFail2 1 0 [pgA, pgB] 0).failureCount = 1 ∧
    (runPass envCsvFail2 1 0 [pgA, pgB] 0).failedPages = [pgA] := by
  decide

/-- C6 amended: an I/O failure of either persistence operation — saving the
raw result, or appending the metrics row — for one target is caught by the
same per-target handler as fetch failures: the target is counted as a failure
and appended to `failedPages`, and the pass continues with the remaining
targets. -/
theorem c6_persist_error_recovered :
    (∀ (env : Env) (delay : Int) (k : Nat) (p : PageConfig)
        (rest : List PageConfig) (t : Nat) (d : FetchResult) (msg : String),
      1 ≤ k → (∀ s, env.aborted s = false) →
      env.oracle t p.url = Except.ok d →
      env.saveRawR (t + 1) = Except.error msg →
      (runPass env (k : Int) delay (p :: rest) t).successCount =
        (runPass env (k : Int) delay rest (t + 2)).successCount ∧
      (runPass env (k : Int) delay (p :: rest) t).failureCount =
        (runPass env (k : Int) delay rest (t + 2)).failureCount + 1 ∧
      (runPass env (k : Int) delay (p :: rest) t).failedPages =
        p :: (runPass env (k : Int) delay rest (t + 2)).failedPages ∧
      (runPass env (k : Int) delay (p :: rest) t).cancelled =
        (runPass env (k : Int) delay rest (t + 2)).cancelled) ∧
    (∀ (env : Env) (delay : Int) (k : Nat) (p : PageConfig)
        (rest : List PageConfig) (t : Nat) (d : FetchResult) (msg : String),
      1 ≤ k → (∀ s, env.aborted s = false) →
      env.oracle t p.url = Except.ok d →
      env.saveRawR (t + 1) = Except.ok () →
      env.saveCsvR (t + 2) = Except.error msg →
      (runPass env (k : Int) delay (p :: rest) t).successCount =
        (runPass env (k : Int) delay rest (t + 3)).successCount ∧
      (runPass env (k : Int) delay (p :: rest) t).failureCount =
        (runPass env (k : Int) delay rest (t + 3)).failureCount + 1 ∧
      (runPass env (k : Int) delay (p :: rest) t).failedPages =
        p :: (runPass env (k : Int) delay rest (t + 3)).failedPages ∧
      (runPass env (k : Int) delay (p :: rest) t).cancelled =
        (runPass env (k : Int) delay rest (t + 3)).cancelled) := by
  constructor
  · intro env delay k p rest t d msg hk hab hd hraw
    have hf := fetchUnit_ok_head env p.url delay d k t hk (hab t) hd
    have hstep := runPass_cons_rawfail env (k : Int) delay p rest t (t + 1)
      (some d) [Ev.net t p.url] msg hf hraw (hab (t + 1 + 1))
    rw [hstep]
    refine ⟨?_, ?_, ?_, ?_⟩ <;> simp
  · intro env delay k p rest t d msg hk hab hd hraw hcsv
    have hf := fetchUnit_ok_head env p.url delay d k t hk (hab t) hd
    have hstep := runPass_cons_csvfail env (k : Int) delay p rest t (t + 1)
      d [Ev.net t p.url] msg hf hraw (by simpa using hcsv) (hab (t + 1 + 2))
    rw [hstep]
    have h3 : t + 1 + 2 = t + 3 := by omega
    rw [h3] at hstep ⊢
    refine ⟨?_, ?_, ?_, ?_⟩ <;> simp

/-- Witness for C6 amended: the two concrete persistence-failure runs, one
failing the raw save, one failing the metrics append. -/
theorem c6_witness :
    ((runPass envRawFail1 ((1 : Nat) : Int) 0 [pgA, pgB] 0).failureCount =
      (runPass envRawFail1 ((1 : Nat) : Int) 0 [pgB] (0 + 2)).failureCount + 1 ∧
    (runPass envRawFail1 ((1 : Nat) : Int) 0 [pgA, pgB] 0).failedPages =
      pgA ::
        (runPass envRawFail1 ((1 : Nat) : Int) 0 [pgB] (0 + 2)).failedPages) ∧
    (runPass envCsvFail2 ((1 : Nat) : Int) 0 [pgA, pgB] 0).failureCount =
      (runPass envCsvFail2 ((1 : Nat) : Int) 0 [pgB] (0 + 3)).failureCount + 1 ∧
    (runPass envCsvFail2 ((1 : Nat) : Int) 0 [pgA, pgB] 0).failedPages =
      pgA ::
        (runPass envCsvFail2 ((1 : Nat) : Int) 0 [pgB] (0 + 3)).failedPages := by
  have h := c6_persist_error_recovered
  have h1 := h.1 envRawFail1 0 1 pgA [pgB] 0 "D" "disk"
    (by omega) (fun _ => rfl) rfl rfl
  have h2 := h.2 envCsvFail2 0 1 pgA [pgB] 0 "D" "disk"
    (by omega) (fun _ => rfl) rfl rfl rfl
  exact ⟨⟨h1.2.1, h1.2.2.1⟩, h2.2.1, h2.2.2.1⟩

lemma saveMetricsToCSVFile_append (rec : MetricsRecord) (rows : List CsvRow)
    (h : rows ≠ []) :
    saveMetricsToCSVFile rec (some rows) = some (rows ++ [CsvRow.data rec]) := by
  cases rows with
  | nil => exact absurd rfl h
  | cons a l => simp [saveMetricsToCSVFile]

lemma saveMetricsToCSVFile_fold (recs : List MetricsRecord) :
    ∀ rows, rows ≠ [] →
      recs.foldl (fun f r => saveMetricsToCSVFile r f) (some rows) =
        some (rows ++ recs.map CsvRow.data) := by
  induction recs with
  | nil => intro rows _; simp
  | cons r rs ih =>
    intro rows h
    simp only [List.foldl_cons]
    rw [saveMetricsToCSVFile_append r rows h,
      ih (rows ++ [CsvRow.data r]) (by simp)]
    simp

lemma count_header_map_data (recs : List MetricsRecord) :
    (recs.map CsvRow.data).count CsvRow.header = 0 := by
  induction recs with
  | nil => simp
  | cons r rs ih => simp [List.count_cons, ih]

/-- C8: the metrics append writes the CSV header exactly once.  A write to a
nonexistent or empty file produces the header row followed by one data row;
every write to a nonempty file appends exactly one data row without a header
and without truncating prior rows; iterating writes from an empty start (also
across repeated runs, since only the file state carries over) yields exactly
one header followed by one data row per record. -/
theorem c8_csv_header_once :
    (∀ rec, saveMetricsToCSVFile rec none =
      some [CsvRow.header, CsvRow.data rec]) ∧
    (∀ rec, saveMetricsToCSVFile rec (some []) =
      some [CsvRow.header, CsvRow.data rec]) ∧
    (∀ rec rows, rows ≠ [] →
      saveMetricsToCSVFile rec (some rows) =
        some (rows ++ [CsvRow.data rec])) ∧
    (∀ recs : List MetricsRecord, recs ≠ [] →
      recs.foldl (fun f r => saveMetricsToCSVFile r f) none =
        some (CsvRow.header :: recs.map CsvRow.data)) ∧
    (∀ recs : List MetricsRecord, recs ≠ [] →
      ((recs.foldl (fun f r => saveMetricsToCSVFile r f) none).getD
        []).count CsvRow.header = 1) := by
  have hfold : ∀ recs : List MetricsRecord, recs ≠ [] →
      recs.foldl (fun f r => saveMetricsToCSVFile r f) none =
        some (CsvRow.header :: recs.map CsvRow.data) := by
    intro recs h
    cases recs with
    | nil => exact absurd rfl h
    | cons r rs =>
      simp only [List.foldl_cons]
      rw [show saveMetricsToCSVFile r none =
        some [CsvRow.header, CsvRow.data r] from rfl,
        saveMetricsToCSVFile_fold rs [CsvRow.header, CsvRow.data r] (by simp)]
      simp
  refine ⟨fun rec => rfl, fun rec => rfl,
    saveMetricsToCSVFile_append, hfold, ?_⟩
  intro recs h
  rw [hfold recs h]
  simp [List.count_cons, count_header_map_data]

/-- A sample metrics record. -/
def sampleRec : MetricsRecord :=
  ⟨"Home", "2026-10-11 10:00:00", "1.2 s", "2.3 s", "0.01", "30 ms", "3.4 s"⟩

/-- A second sample metrics record. -/
def sampleRec2 : MetricsRecord :=
  ⟨"PDP", "2026-10-11 10:05:00", "1.5 s", "2.8 s", "0.02", "50 ms", "4.0 s"⟩

/-- Witness for C8: first write creates header plus one row, the second run's
write appends exactly one data row. -/
theorem c8_witness :
    saveMetricsToCSVFile sampleRec none =
      some [CsvRow.header, CsvRow.data sampleRec] ∧
    ([sampleRec, sampleRec2] : List MetricsRecord) ≠ [] ∧
    [sampleRec, sampleRec2].foldl (fun f r => saveMetricsToCSVFile r f) none =
      some (CsvRow.header :: [sampleRec, sampleRec2].map CsvRow.data) := by
  have h := c8_csv_header_once
  exact ⟨h.1 sampleRec, by simp,
    h.2.2.2.1 [sampleRec, sampleRec2] (by simp)⟩

/-- C10 counterexample: when the page's `context` string equals the current
date string, the directory `saveMetricsToCSV` ensures is exactly the
directory containing the CSV file it writes, refuting "for every invocation
the directory it creates is not the directory containing the file". -/
theorem c10_counterexample :
    saveMetricsEnsuredDir "results" "2026-02-03" =
      parentDir (metricsCsvPath "results" "2026-02-03") := by
  decide

/-- C10 amended: `saveMetricsToCSV` ensures `<resultsDir>/<date>` but writes
the CSV at `<resultsDir>/<context>/metrics.csv`; whenever `context` differs
from the date string the created directory is not the file's directory, so a
first metrics write for a context whose directory does not already exist
still targets a nonexistent directory after the ensure. -/
theorem c10_wrong_dir_ensured (resultsDir context date : String)
    (h : context ≠ date) :
    saveMetricsEnsuredDir resultsDir date = [resultsDir, date] ∧
    metricsCsvPath resultsDir context = [resultsDir, context, "metrics.csv"] ∧
    parentDir (metricsCsvPath resultsDir context) = [resultsDir, context] ∧
    saveMetricsEnsuredDir resultsDir date ≠
      parentDir (metricsCsvPath resultsDir context) ∧
    (∀ existing : List (List String),
      parentDir (metricsCsvPath resultsDir context) ∉ existing →
      parentDir (metricsCsvPath resultsDir context) ∉
        saveMetricsEnsuredDir resultsDir date :: existing) := by
  refine ⟨rfl, rfl, rfl, ?_, ?_⟩
  · intro hEq
    have : date = context := by
      simpa [saveMetricsEnsuredDir, parentDir, metricsCsvPath] using hEq
    exact h this.symm
  · intro existing hnotin hmem
    rcases List.mem_cons.mp hmem with hEq | hmem2
    · have : context = date := by
        simpa [saveMetricsEnsuredDir, parentDir, metricsCsvPath] using hEq
      exact h this
    · exact hnotin hmem2

/-- Witness for C10 amended at a typical context of the sample config. -/
theorem c10_witness :
    ("staging" : String) ≠ "2026-02-03" ∧
    saveMetricsEnsuredDir "results" "2026-02-03" ≠
      parentDir (metricsCsvPath "results" "staging") := by
  have h := c10_wrong_dir_ensured "results" "staging" "2026-02-03" (by decide)
  exact ⟨by decide, h.2.2.2.1⟩

end PsiMonitor
